import Mathlib

/-
Verification of the layout-aggregation script `aggregate/aggregate.py`
(UBC-ELEC413-2025Fall).  The script drives the KLayout/SiEPIC CAD engine; the
definitions below are a shallow embedding of the control flow and
bookkeeping, with the external CAD primitives modelled as pure data:

* a submission layout is a database unit (a rational) plus a list of top
  cells, each top cell being a name and rectangle lists (shapes on kept
  layers, and shapes on layers the script deletes);
* reading a file (`layout2.read`, line 341) is an `Except` value carried by
  the input, since the parser is external;
* clipping (`layout2.clip`, line 456) intersects each rectangle with the clip
  box;
* waveguide connections made by the laser-circuit loop (lines 574-673) are
  recorded as a list of (splitter-tree instance, pin, target) records, since
  the geometric routing itself is done by the vendor router.

Line numbers in comments refer to src/aggregate/aggregate.py.
-/

/- ## String helpers: Python substring tests (`sub in s`, `sub in s.lower()`) -/

/-- Does the second character list start with the first one? -/
def startsWithL : List Char → List Char → Bool
  | [], _ => true
  | _ :: _, [] => false
  | a :: as, b :: bs => a == b && startsWithL as bs

/-- Is the first character list a contiguous sublist of the second one? -/
def hasSubList (sub : List Char) : List Char → Bool
  | [] => startsWithL sub []
  | b :: bs => startsWithL sub (b :: bs) || hasSubList sub bs

/-- Python `sub in s` (case sensitive), used e.g. for `framework_file in
os.path.basename(f)` (line 382) and the hostname check (line 167). -/
def strHasE (sub s : String) : Bool := hasSubList sub.toList s.toList

/-- Python `s.lower()`, character by character (the script only lowers ASCII
names). -/
def strLower (s : String) : String := ⟨s.data.map Char.toLower⟩

/-- Python `sub in s.lower()` with a lower-case literal `sub`: the pattern the
script uses at lines 323, 343-349 and 485. -/
def inLower (sub s : String) : Bool :=
  hasSubList sub.toList (strLower s).toList

/-- Case-insensitive substring test where both sides are lowered; used only
for the spec-side restatement of the categorization rule. -/
def containsCI (sub s : String) : Bool :=
  hasSubList (strLower sub).toList (strLower s).toList

/- ## Configuration constants (lines 112-160, 193-199) -/

def n_lasers : ℕ := 3
def tree_depth : ℕ := 4
def cell_Width : ℤ := 800000
def cell_Height : ℤ := 500000
def dbu : ℚ := 1 / 1000
def framework_file : String := "shuksan_pcm"
def ubc_file : Option String := none

/- ## Course categorization (lines 343-352) -/

inductive Course
  | ELEC413
  | edXphot1x
  | openEBL
  | SiEPIC_Passives
deriving DecidableEq, Repr

/-- The if-chain at lines 343-352: substring tests on
`basefilename.lower()`, defaulting to openEBL. -/
def courseOf (basefilename : String) : Course :=
  if inLower "elec413" basefilename then Course.ELEC413
  else if inLower "ebeam" basefilename then Course.edXphot1x
  else if inLower "openebl" basefilename then Course.openEBL
  else if inLower "siepic_passives" basefilename then Course.SiEPIC_Passives
  else Course.openEBL

/-- Spec-side restatement of the categorization rule, written from the words
of claim C1 (case-insensitive substring matching, tested in the order
elec413, ebeam, openebl, siepic_passives, with default openEBL); to be
compared with `courseOf`, which is translated from the code. -/
def specCourse (basefilename : String) : Course :=
  if containsCI "elec413" basefilename then Course.ELEC413
  else if containsCI "ebeam" basefilename then Course.edXphot1x
  else if containsCI "openebl" basefilename then Course.openEBL
  else if containsCI "siepic_passives" basefilename then Course.SiEPIC_Passives
  else Course.openEBL

/-- The file filter at line 323: the path, lowered, must contain `.oas` or
`.gds`; applied to the full path of the file. -/
def isLayoutFile (f : String) : Bool := inLower ".oas" f || inLower ".gds" f

/- ## Boxes and bounding boxes -/

/-- An integer rectangle in database units, as KLayout `pya.Box`. -/
structure Box where
  left : ℤ
  bottom : ℤ
  right : ℤ
  top : ℤ
deriving DecidableEq, Repr

/-- KLayout represents the bounding box of an empty cell as a degenerate box
whose top is below its bottom (checked by the script at line 405). -/
def emptyBBox : Box := ⟨1, 1, 0, 0⟩

/-- Union of two bounding boxes. -/
def boxUnion (a b : Box) : Box :=
  ⟨min a.left b.left, min a.bottom b.bottom, max a.right b.right,
    max a.top b.top⟩

/-- Bounding box of a list of rectangles (`cell.bbox()`). -/
def bboxOf : List Box → Box
  | [] => emptyBBox
  | b :: bs => bs.foldl boxUnion b

/-- Containment of a rectangle in a bounding box. -/
def withinB (s b : Box) : Prop :=
  b.left ≤ s.left ∧ b.bottom ≤ s.bottom ∧ s.right ≤ b.right ∧ s.top ≤ b.top

/- ## Clipping (lines 455-463) -/

/-- The clip box of line 456: anchored at the lower-left corner of the cell
bounding box, `cell_Width` wide and `cell_Height` high. -/
def clipRegion (bbox : Box) : Box :=
  ⟨bbox.left, bbox.bottom, bbox.left + cell_Width, bbox.bottom + cell_Height⟩

/-- Intersection of one rectangle with the clip box; rectangles entirely
outside the clip box are dropped. -/
def boxIntersect (clip b : Box) : Option Box :=
  if max clip.left b.left ≤ min clip.right b.right ∧
      max clip.bottom b.bottom ≤ min clip.top b.top then
    some ⟨max clip.left b.left, max clip.bottom b.bottom,
      min clip.right b.right, min clip.top b.top⟩
  else none

/-- `layout2.clip` on the cell content. -/
def clipShapes (region : Box) (shapes : List Box) : List Box :=
  shapes.filterMap (boxIntersect region)

/-- Lines 455-463: clip the cell to `clipRegion`; the returned flag is the
clip warning condition `bbox != bbox2` (line 458). -/
def clipCell (bbox : Box) (shapes : List Box) : List Box × Bool :=
  let copied := clipShapes (clipRegion bbox) shapes
  (copied, bbox != bboxOf copied)

/- ## Database-unit correction (lines 357-371) -/

/-- Python `round` at 10 decimal places uses round-half-to-even ties. -/
def roundHalfEven (q : ℚ) : ℤ :=
  if q - ⌊q⌋ < 1 / 2 then ⌊q⌋
  else if 1 / 2 < q - ⌊q⌋ then ⌊q⌋ + 1
  else if ⌊q⌋ % 2 = 0 then ⌊q⌋ else ⌊q⌋ + 1

/-- Python `round(x, 10)` on the database unit, modelled over the rationals. -/
def round10 (q : ℚ) : ℚ := (roundHalfEven (q * 10 ^ 10) : ℚ) / 10 ^ 10

/-- Outcome of the database-unit check: the layout database unit afterwards,
the scaling magnification applied by `ICplxTrans` (none when no transform is
applied), and whether the mismatch warning was logged. -/
structure DbuOutcome where
  newDbu : ℚ
  scaling : Option ℚ
  warned : Bool
deriving DecidableEq

/-- Lines 357-371: if `round(layout2.dbu, 10) != dbu` the script sets the
layout database unit to `dbu`, scales the layout by
`round(wrong_dbu / dbu, 10)` and logs warnings; otherwise it does nothing. -/
def dbuStep (layoutDbu : ℚ) : DbuOutcome :=
  if round10 layoutDbu ≠ dbu then
    ⟨dbu, some (round10 (layoutDbu / dbu)), true⟩
  else ⟨layoutDbu, none, false⟩

/- ## The submission-loading loop (lines 323-472) -/

/-- A top cell of a submission layout: its name, its rectangles on the layers
the script keeps (`layers_keep`, line 160), and its rectangles on the layers
the script deletes (lines 415-422).  The text-layer handling (lines 424-443)
only moves text labels and is not tracked. -/
structure TopCellData where
  name : String
  shapesKept : List Box
  shapesOther : List Box
deriving DecidableEq, Repr

/-- A submission layout after a successful read: database unit and top
cells. -/
structure SubLayout where
  dbu : ℚ
  tops : List TopCellData
deriving DecidableEq

/-- One input file: its full path (filter, line 323), its base name
(categorization, lines 343-352), its modification-date stamp (line 329), and
the result of the external `layout2.read` call (line 341). -/
structure SubFile where
  path : String
  base : String
  filedate : String
  readResult : Except String SubLayout

/-- The sub-cell name built at line 410: base filename plus date stamp. -/
def subcellName (f : SubFile) : String := f.base ++ "_" ++ f.filedate

/-- The mutable state of the loading loop (lines 317-320), plus the log file
and a ghost list `accepted` of base filenames of the accepted submissions, in
order of acceptance. -/
structure LoopState where
  design_count : ℕ
  course_cells : List String
  cells_course : List Course
  accepted : List String
  log : List String
deriving DecidableEq

def initState : LoopState := ⟨0, [], [], [], []⟩

def emptyWarning : String := " - WARNING: empty layout. Skipping."
def clipWarningLog : String := "WARNING: Cell was clipped to maximum size"
def dbuWarningLog : String := "WARNING: database unit corrected and scaled"

/-- The `for cell in layout2.top_cells()` loop (lines 381-472).  The three
early-exit branches (framework file, line 382; ubc file, line 391; empty
layout, line 405) `break` without touching the design lists; a cell that
passes the selection test of line 401 appends one sub-cell name to
`course_cells` (line 411), one course cell to `cells_course` (line 472) and
increments `design_count` (line 471), logging the clip warning of lines
458-460 when the clipped bounding box differs. -/
def processCells (f : SubFile) (course : Course) (numTop : ℕ) :
    List TopCellData → LoopState → LoopState
  | [], st => st
  | c :: rest, st =>
    if strHasE framework_file f.base then
      { st with log := st.log ++ ["framework cell: " ++ subcellName f] }
    else if ubc_file = some f.base then
      { st with log := st.log ++ ["ubc cell: " ++ subcellName f] }
    else if numTop = 1 ∨ strLower c.name = "top" ∨ strLower c.name = "EBeam_" then
      if (bboxOf (c.shapesKept ++ c.shapesOther)).top <
          (bboxOf (c.shapesKept ++ c.shapesOther)).bottom then
        { st with log := st.log ++ [emptyWarning] }
      else
        processCells f course numTop rest
          { design_count := st.design_count + 1
            course_cells := st.course_cells ++ [subcellName f]
            cells_course := st.cells_course ++ [course]
            accepted := st.accepted ++ [f.base]
            log := st.log ++ ["top cell: " ++ c.name] ++
              (if (clipCell (bboxOf c.shapesKept) c.shapesKept).2 then
                [clipWarningLog] else []) }
    else processCells f course numTop rest st

/-- The per-file body of the loading loop (lines 324-472) for a successfully
read layout: log the load, run the database-unit check, and walk the top
cells with the course chosen by `courseOf`. -/
def processFile (f : SubFile) (lay : SubLayout) (st : LoopState) : LoopState :=
  let st1 := { st with log := st.log ++ ["Loading: " ++ f.base] }
  let st2 := { st1 with log := st1.log ++
    (if (dbuStep lay.dbu).warned then [dbuWarningLog] else []) }
  processCells f (courseOf f.base) lay.tops.length lay.tops st2

/-- The loading loop over all input files (line 323): files whose path does
not contain `.oas` or `.gds` are filtered out; a failing `layout2.read`
(line 341) raises, aborting the whole loop. -/
def foldFiles : List SubFile → LoopState → Except String LoopState
  | [], st => Except.ok st
  | f :: rest, st =>
    if isLayoutFile f.path then
      match f.readResult with
      | Except.error e => Except.error e
      | Except.ok lay => foldFiles rest (processFile f lay st)
    else foldFiles rest st

/- ## Power-monitor reorganization (lines 483-501) -/

/-- Python `list.insert(i, x)`: positions past the end append at the end. -/
def pythonInsert (i : ℕ) (x : α) (l : List α) : List α :=
  l.take i ++ x :: l.drop i

/-- The first-index search of lines 484-488: first cell whose name contains
`power_monitor` case-insensitively. -/
def findPmIdx : List String → ℕ → Option ℕ
  | [], _ => none
  | c :: rest, k =>
    if inLower "power_monitor" c then some k else findPmIdx rest (k + 1)

/-- Result of the reorganization: the new `course_cells` list and whether the
no-power-monitor warning (line 501) was logged. -/
structure PmResult where
  cells : List String
  warned : Bool
deriving DecidableEq

/-- Lines 483-501: pop the first power-monitor cell and re-insert it at
position `row * tree_depth ** 2` for each laser row; warn and leave the list
unchanged when there is none. -/
def powerMonitorStep (cells : List String) : PmResult :=
  match findPmIdx cells 0 with
  | some i =>
    let pm := cells.getD i ""
    let popped := cells.eraseIdx i
    ⟨(List.range n_lasers).foldl
      (fun l row => pythonInsert (row * tree_depth ^ 2) pm l) popped, false⟩
  | none => ⟨cells, true⟩

/- ## Required PDK cells (lines 505-550) -/

/-- The five library cells the script loads from the PDK (lines 512-529); a
`none` models a falsy result of `create_cell2` / `create_cell`. -/
structure PdkCells where
  cell_y : Option String
  cell_heater : Option String
  cell_pad : Option String
  cell_terminator : Option String
  cell_laser : Option String

/-- The guard chain of lines 533-550, in source order: y splitter, heater,
terminator, laser, bond pad.  A falsy cell raises a fatal exception. -/
def checkRequiredCells (p : PdkCells) : Except String Unit :=
  if p.cell_y.isNone then
    Except.error "Cannot load 1x2 splitter cell; please check the script carefully."
  else if p.cell_heater.isNone then
    Except.error "Cannot load waveguide heater cell; please check the script carefully."
  else if p.cell_terminator.isNone then
    Except.error "Cannot load terminator cell; please check the script carefully."
  else if p.cell_laser.isNone then
    Except.error "Cannot load laser cell; please check the script carefully."
  else if p.cell_pad.isNone then
    Except.error "Cannot load bond pad cell; please check the script carefully."
  else Except.ok ()

/- ## The laser-circuit placement loop (lines 574-675) -/

/-- What a splitter-tree output gets connected to: the student design
`course_cells[d]` (line 647) or a terminator (line 672). -/
inductive Target
  | design (d : ℕ)
  | terminator
deriving DecidableEq, Repr

/-- One `connect_pins_with_waveguide` / `connect_cell` call on a splitter-tree
output: tree-output instance `inst_tree_out_all[d // 2]`, pin
`opt` followed by `2 + (d + 1) % 2`, and the connected target. -/
structure Conn where
  instIdx : ℕ
  pinNum : ℕ
  target : Target
deriving DecidableEq, Repr

/-- The tree-output instance and pin used for design index `d`
(lines 649 and 672). -/
def connFor (d : ℕ) (t : Target) : Conn := ⟨d / 2, 2 + (d + 1) % 2, t⟩

/-- Indices of the student-design loop of one laser row (line 642):
`range(row * tree_depth ** 2, min(design_count, (row + 1) * tree_depth ** 2))`. -/
def designRange (dc row : ℕ) : List ℕ :=
  List.range' (row * tree_depth ^ 2)
    (min dc ((row + 1) * tree_depth ^ 2) - row * tree_depth ^ 2)

/-- Indices of the terminator loop of one laser row (line 670):
`range(min(design_count, (row + 1) * tree_depth ** 2), (row + 1) * tree_depth ** 2)`. -/
def termRange (dc row : ℕ) : List ℕ :=
  List.range' (min dc ((row + 1) * tree_depth ^ 2))
    ((row + 1) * tree_depth ^ 2 - min dc ((row + 1) * tree_depth ^ 2))

/-- The connections made while building one laser circuit. -/
def rowConns (dc row : ℕ) : List Conn :=
  (designRange dc row).map (fun d => connFor d (Target.design d)) ++
    (termRange dc row).map (fun d => connFor d Target.terminator)

/-- All splitter-output connections made by the `for row in range(0, n_lasers)`
loop (lines 574-675), given the accepted design count. -/
def allConns (dc : ℕ) : List Conn :=
  (List.range n_lasers).foldr (fun row acc => rowConns dc row ++ acc) []

/-- Does a connection touch the splitter output of design index `d`? -/
def atOutput (d : ℕ) (c : Conn) : Bool :=
  decide (c.instIdx = d / 2 ∧ c.pinNum = 2 + (d + 1) % 2)

def isDesignConn (d : ℕ) (c : Conn) : Bool :=
  atOutput d c && decide (c.target = Target.design d)

def isTermConn (d : ℕ) (c : Conn) : Bool :=
  atOutput d c && decide (c.target = Target.terminator)

/-- Number of connections of the splitter output for design index `d`. -/
def connsAtOutput (dc d : ℕ) : ℕ := (allConns dc).countP (atOutput d)

/-- Number of student-design connections at that output. -/
def designConnsAt (dc d : ℕ) : ℕ := (allConns dc).countP (isDesignConn d)

/-- Number of terminator connections at that output. -/
def termConnsAt (dc d : ℕ) : ℕ := (allConns dc).countP (isTermConn d)

/- ## End of run: export, laser-circuit cells, conditional copy -/

/-- The laser-circuit sub-cells created at line 577, one per row. -/
def buildLaserCircuits (n : ℕ) : List String :=
  (List.range n).map (fun row => "laser_circuit_" ++ toString row)

/-- What a completed run produces: the loading-loop results, the reorganized
course cells, the laser-circuit cells, the recorded splitter connections, the
exported layout file (line 688), the screenshot (line 704) and the log. -/
structure RunOutput where
  design_count : ℕ
  course_cells_final : List String
  cells_course : List Course
  laser_circuit_cells : List String
  conns : List Conn
  exported_file : String
  screenshot : Bool
  log : List String

/-- The whole script after initialization: the loading loop (aborting on a
read failure), the power-monitor reorganization (lines 483-501), the fatal
PDK-cell checks (lines 533-550), then the laser circuits and the export.  A
raised exception anywhere produces no output at all. -/
def runScript (files : List SubFile) (pdk : PdkCells) :
    Except String RunOutput :=
  match foldFiles files initState with
  | Except.error e => Except.error e
  | Except.ok st =>
    let pm := powerMonitorStep st.course_cells
    match checkRequiredCells pdk with
    | Except.error e => Except.error e
    | Except.ok _ =>
      Except.ok
        { design_count := st.design_count
          course_cells_final := pm.cells
          cells_course := st.cells_course
          laser_circuit_cells := buildLaserCircuits n_lasers
          conns := allConns st.design_count
          exported_file := "Shuksan.oas"
          screenshot := true
          log := st.log ++ (if pm.warned then
            ["WARNING: No power monitor cell found in course_cells"] else []) }

/- ## Host check and conditional copy (lines 162-191, 690-695) -/

def shuksanTargetDir : String :=
  "/Users/lukasc/Documents/GitHub/SiEPIC_Shuksan_ANT_SiN_2025_08/submissions/9x9"

/-- Lines 162-169: `"Lukass-" in socket.gethostname()`; a hostname lookup
failure (the `except` branch) counts as `False`. -/
def is_running_on_lukasc_air (hostname : Option String) : Bool :=
  match hostname with
  | some h => strHasE "Lukass-" h
  | none => false

/-- Lines 173-191: returns whether the output file is copied to
`shuksanTargetDir`; nothing happens off the named host or when the target
directory is missing. -/
def copy_to_shuksan_designs_folder (hostname : Option String)
    (targetDirExists : Bool) : Bool :=
  if !is_running_on_lukasc_air hostname then false
  else if !targetDirExists then false
  else true

/-- The conditional copy after export (lines 690-695). -/
def copyAfterExport (hostname : Option String) (targetDirExists : Bool) :
    Bool :=
  if is_running_on_lukasc_air hostname then
    copy_to_shuksan_designs_folder hostname targetDirExists
  else false

/- ## Concrete run used to probe the list bookkeeping -/

/-- A submissions folder with a power-monitor design and one other ELEC413
design, both well-formed. -/
def pmRunFiles : List SubFile :=
  [⟨"submissions/ELEC413_power_monitor.gds", "ELEC413_power_monitor.gds",
      "20250101_0000", Except.ok ⟨1 / 1000, [⟨"top", [⟨0, 0, 100, 100⟩], []⟩]⟩⟩,
    ⟨"submissions/elec413_alice.gds", "elec413_alice.gds", "20250101_0000",
      Except.ok ⟨1 / 1000, [⟨"top", [⟨0, 0, 100, 100⟩], []⟩]⟩⟩]

/-- The loop state after loading `pmRunFiles` (the default is never used:
the run succeeds). -/
def pmRunState : LoopState :=
  (foldFiles pmRunFiles initState).toOption.getD initState

/- ## Claims -/

/-- Claim C1: every input file whose name contains `.oas` or `.gds`
(case-insensitively) is assigned exactly one course by case-insensitive
substring matching on the base filename, in the order elec413, ebeam,
openebl, siepic_passives, defaulting to openEBL (`courseOf` agrees with the
spec-side `specCourse` on every name); files without `.oas` or `.gds` in the
name are never processed by the loading loop, and matching files are
processed through `processFile`, which categorizes by `courseOf` on the base
filename. -/
theorem c1_categorization :
    (∀ name, courseOf name = specCourse name) ∧
    (∀ (f : SubFile) rest st, isLayoutFile f.path = false →
      foldFiles (f :: rest) st = foldFiles rest st) ∧
    (∀ (f : SubFile) lay rest st, isLayoutFile f.path = true →
      f.readResult = Except.ok lay →
      foldFiles (f :: rest) st = foldFiles rest (processFile f lay st)) := by
  refine ⟨?_, ?_, ?_⟩
  · intro name
    have h1 : strLower "elec413" = "elec413" := by decide
    have h2 : strLower "ebeam" = "ebeam" := by decide
    have h3 : strLower "openebl" = "openebl" := by decide
    have h4 : strLower "siepic_passives" = "siepic_passives" := by decide
    simp only [courseOf, specCourse, containsCI, inLower, h1, h2, h3, h4]
  · intro f rest st h
    simp [foldFiles, h]
  · intro f lay rest st h hr
    simp [foldFiles, h, hr]

/-- Witness for C1 at concrete inputs: an `ebeam` file name is categorized
identically by code and spec, and a non-layout file is skipped by the
loading loop. -/
theorem c1_witness :
    courseOf "EBeam_alice.oas" = specCourse "EBeam_alice.oas" ∧
    foldFiles [⟨"submissions/README.md", "README.md", "20250101_0000",
      Except.error "not a layout"⟩] initState = foldFiles [] initState :=
  ⟨c1_categorization.1 "EBeam_alice.oas",
    c1_categorization.2.1 _ [] initState (by decide)⟩

/-- Claim C4: a loaded layout whose database unit, rounded to 10 decimal
places, differs from the required dbu of 0.001 gets its dbu set to 0.001, its
geometry scaled by `round(wrong_dbu / dbu, 10)`, and a warning logged; a
layout whose dbu already equals 0.001 is left untransformed and unwarned. -/
theorem c4_dbu (d : ℚ) :
    dbu = 1 / 1000 ∧
    (round10 d ≠ dbu →
      dbuStep d = ⟨dbu, some (round10 (d / dbu)), true⟩) ∧
    (d = dbu → dbuStep d = ⟨d, none, false⟩) := by
  refine ⟨rfl, ?_, ?_⟩
  · intro h
    rw [dbuStep, if_pos h]
  · intro h
    subst h
    have hr : round10 dbu = dbu := by
      rw [round10, dbu]
      norm_num [roundHalfEven]
    rw [dbuStep, if_neg]
    simp [hr]

/-- Witness for C4: a 5 nm database unit (dbu 0.005) is detected as a
mismatch and corrected with scaling factor 5. -/
theorem c4_dbu_witness :
    round10 (1 / 200) ≠ dbu ∧
    dbuStep (1 / 200) = ⟨dbu, some (round10 ((1 / 200) / dbu)), true⟩ ∧
    round10 ((1 / 200) / dbu) = 5 ∧
    dbuStep dbu = ⟨dbu, none, false⟩ := by
  have hne : round10 (1 / 200) ≠ dbu := by
    rw [round10, dbu]
    norm_num [roundHalfEven]
  refine ⟨hne, (c4_dbu (1 / 200)).2.1 hne, ?_, (c4_dbu dbu).2.2 rfl⟩
  rw [round10, dbu]
  norm_num [roundHalfEven]

/-- Claim C6: the exported layout is copied to the fixed Shuksan path exactly
when the hostname contains `Lukass-` and the target directory exists; on any
other host, when the directory is missing, or when the hostname lookup fails,
the copy step does nothing. -/
theorem c6_conditional_copy :
    shuksanTargetDir =
      "/Users/lukasc/Documents/GitHub/SiEPIC_Shuksan_ANT_SiN_2025_08/submissions/9x9" ∧
    ∀ (hostname : Option String) (dirExists : Bool),
      (copyAfterExport hostname dirExists = true ↔
        (∃ hn, hostname = some hn ∧ strHasE "Lukass-" hn = true) ∧
          dirExists = true) ∧
      copyAfterExport none dirExists = false := by
  refine ⟨rfl, ?_⟩
  intro hostname dirExists
  constructor
  · cases hostname with
    | none =>
      simp [copyAfterExport, is_running_on_lukasc_air]
    | some hn =>
      cases hh : strHasE "Lukass-" hn <;>
        cases dirExists <;>
          simp [copyAfterExport, copy_to_shuksan_designs_folder,
            is_running_on_lukasc_air, hh]
  · simp [copyAfterExport, is_running_on_lukasc_air]

/-- Claim C3: if any of the five required library cells is falsy after the
create-cell calls, the script raises a fatal exception before any laser
circuit is built, so the run never produces an output (no export, no
screenshot). -/
theorem c3_required_cells (p : PdkCells)
    (h : p.cell_y = none ∨ p.cell_heater = none ∨ p.cell_terminator = none ∨
      p.cell_laser = none ∨ p.cell_pad = none) :
    ∀ files out, runScript files p ≠ Except.ok out := by
  intro files out hcon
  have herr : ∃ m, checkRequiredCells p = Except.error m := by
    rw [checkRequiredCells]
    split_ifs with h1 h2 h3 h4 h5
    · exact ⟨_, rfl⟩
    · exact ⟨_, rfl⟩
    · exact ⟨_, rfl⟩
    · exact ⟨_, rfl⟩
    · exact ⟨_, rfl⟩
    · simp only [Option.isNone_iff_eq_none] at h1 h2 h3 h4 h5
      tauto
  obtain ⟨m, hm⟩ := herr
  rw [runScript] at hcon
  cases hfold : foldFiles files initState with
  | error e => rw [hfold] at hcon; exact Except.noConfusion hcon
  | ok st =>
    rw [hfold] at hcon
    simp only [hm] at hcon
    exact Except.noConfusion hcon

/-- Witness for C3: with the laser cell missing, a run on an empty submission
folder produces no output. -/
theorem c3_required_cells_witness :
    runScript [] ⟨some "ebeam_YBranch_te1310", some "wg_heater",
        some "ebeam_BondPad", some "ebeam_terminator_SiN_1310", none⟩ ≠
      Except.ok ⟨0, [], [], [], [], "", false, []⟩ :=
  c3_required_cells _ (by simp) [] _

/-- Claim C5: there is an input file the layout reader cannot parse whose
read aborts the whole run: for any files placed after it and any PDK state,
the script ends with that read error, so no later submission is processed and
no merged layout, screenshot, or completed log is produced. -/
theorem c5_read_abort :
    ∃ bad : SubFile, bad.readResult = Except.error "layout2.read failed" ∧
      isLayoutFile bad.path = true ∧
      ∀ rest pdk, runScript (bad :: rest) pdk =
        Except.error "layout2.read failed" := by
  refine ⟨⟨"submissions/corrupt.gds", "corrupt.gds", "20250101_0000",
    Except.error "layout2.read failed"⟩, rfl, by decide, ?_⟩
  intro rest pdk
  rfl

/- Helper lemmas about bounding boxes and clipping. -/

theorem withinB_refl (s : Box) : withinB s s :=
  ⟨le_refl _, le_refl _, le_refl _, le_refl _⟩

theorem withinB_boxUnion_left (s b x : Box) (h : withinB s b) :
    withinB s (boxUnion b x) := by
  obtain ⟨h1, h2, h3, h4⟩ := h
  refine ⟨?_, ?_, ?_, ?_⟩ <;> simp [boxUnion] <;> omega

theorem withinB_boxUnion_right (b x : Box) : withinB x (boxUnion b x) := by
  refine ⟨?_, ?_, ?_, ?_⟩ <;> simp [boxUnion]

theorem withinB_foldl (bs : List Box) :
    ∀ b s, withinB s b → withinB s (bs.foldl boxUnion b) := by
  induction bs with
  | nil => intro b s h; simpa using h
  | cons x bs ih =>
    intro b s h
    rw [List.foldl_cons]
    exact ih _ _ (withinB_boxUnion_left _ _ _ h)

theorem withinB_mem_foldl (bs : List Box) :
    ∀ b s, s ∈ bs → withinB s (bs.foldl boxUnion b) := by
  induction bs with
  | nil => intro b s h; cases h
  | cons x bs ih =>
    intro b s h
    rw [List.foldl_cons]
    rcases List.mem_cons.mp h with rfl | h
    · exact withinB_foldl _ _ _ (withinB_boxUnion_right _ _)
    · exact ih _ _ h

theorem withinB_bboxOf (shapes : List Box) (s : Box) (h : s ∈ shapes) :
    withinB s (bboxOf shapes) := by
  cases shapes with
  | nil => cases h
  | cons b bs =>
    rcases List.mem_cons.mp h with rfl | h
    · exact withinB_foldl _ _ _ (withinB_refl _)
    · exact withinB_mem_foldl _ _ _ h

theorem boxIntersect_of_within (r s : Box) (hlr : s.left ≤ s.right)
    (hbt : s.bottom ≤ s.top) (hw : withinB s r) :
    boxIntersect r s = some s := by
  obtain ⟨h1, h2, h3, h4⟩ := hw
  obtain ⟨sl, sb, sr, st2⟩ := s
  rw [boxIntersect, if_pos (by constructor <;> simp_all)]
  simp only [Option.some.injEq, Box.mk.injEq]
  refine ⟨?_, ?_, ?_, ?_⟩ <;> simp_all

theorem filterMap_id_of (f : Box → Option Box) :
    ∀ l : List Box, (∀ x ∈ l, f x = some x) → l.filterMap f = l := by
  intro l
  induction l with
  | nil => intro _; rfl
  | cons x xs ih =>
    intro h
    rw [List.filterMap_cons, h x (List.mem_cons_self _ _),
      ih (fun y hy => h y (List.mem_cons_of_mem _ hy))]

/-- Claim C2: the content copied for an accepted submission cell is the cell
clipped to the box anchored at the lower-left corner of the cell bounding
box, of width `cell_Width = 800000` and height `cell_Height = 500000`
database units, and the clip warning is logged if and only if the clipped
bounding box differs from the original one; additionally, a cell whose proper
rectangles already fit in that box is copied unchanged with no warning. -/
theorem c2_clip (shapes : List Box) :
    cell_Width = 800000 ∧ cell_Height = 500000 ∧
    (clipCell (bboxOf shapes) shapes).1 =
      clipShapes ⟨(bboxOf shapes).left, (bboxOf shapes).bottom,
        (bboxOf shapes).left + 800000, (bboxOf shapes).bottom + 500000⟩
        shapes ∧
    ((clipCell (bboxOf shapes) shapes).2 = true ↔
      bboxOf (clipCell (bboxOf shapes) shapes).1 ≠ bboxOf shapes) ∧
    (shapes ≠ [] → (∀ s ∈ shapes, s.left ≤ s.right ∧ s.bottom ≤ s.top) →
      (bboxOf shapes).right - (bboxOf shapes).left ≤ cell_Width →
      (bboxOf shapes).top - (bboxOf shapes).bottom ≤ cell_Height →
      (clipCell (bboxOf shapes) shapes).1 = shapes ∧
        (clipCell (bboxOf shapes) shapes).2 = false) := by
  refine ⟨rfl, rfl, rfl, ?_, ?_⟩
  · rw [clipCell]
    constructor
    · intro h
      intro heq
      rw [heq] at h
      simp at h
    · intro h
      simp only [bne_iff_ne, ne_eq]
      exact fun heq => h (heq ▸ rfl)
  · intro hne hproper hw hh
    have hcopy : clipShapes (clipRegion (bboxOf shapes)) shapes = shapes := by
      apply filterMap_id_of
      intro s hs
      apply boxIntersect_of_within _ _ (hproper s hs).1 (hproper s hs).2
      have hb := withinB_bboxOf shapes s hs
      obtain ⟨h1, h2, h3, h4⟩ := hb
      refine ⟨?_, ?_, ?_, ?_⟩ <;> simp [clipRegion] <;> omega
    constructor
    · rw [clipCell]
      exact hcopy
    · rw [clipCell]
      simp only [hcopy]
      simp

/-- Witness for C2: a 100 x 100 cell fits the clip box, is copied unchanged,
and triggers no clip warning. -/
theorem c2_clip_witness :
    (clipCell (bboxOf [⟨0, 0, 100, 100⟩]) [⟨0, 0, 100, 100⟩]).1 =
      [⟨0, 0, 100, 100⟩] ∧
    (clipCell (bboxOf [⟨0, 0, 100, 100⟩]) [⟨0, 0, 100, 100⟩]).2 = false :=
  (c2_clip [⟨0, 0, 100, 100⟩]).2.2.2.2 (by decide) (by decide) (by decide)
    (by decide)

/-- Claim C10: a selected top cell whose bounding box is empty (top strictly
below bottom) makes the loop log the empty-layout warning and break before
any sub-cell is created: `design_count`, `course_cells` and `cells_course`
are untouched for that file. -/
theorem c10_empty_skip (f : SubFile) (course : Course) (numTop : ℕ)
    (c : TopCellData) (rest : List TopCellData) (st : LoopState)
    (hfw : strHasE framework_file f.base = false)
    (hsel : numTop = 1 ∨ strLower c.name = "top" ∨ strLower c.name = "EBeam_")
    (hempty : (bboxOf (c.shapesKept ++ c.shapesOther)).top <
      (bboxOf (c.shapesKept ++ c.shapesOther)).bottom) :
    processCells f course numTop (c :: rest) st =
      { st with log := st.log ++ [emptyWarning] } := by
  rw [processCells]
  rw [if_neg (by simp [hfw]), if_neg (by simp [ubc_file]), if_pos hsel,
    if_pos hempty]

/-- Witness for C10: an empty `openebl` submission is skipped with only the
warning logged. -/
theorem c10_empty_skip_witness :
    processCells
        ⟨"submissions/openebl_empty.gds", "openebl_empty.gds",
          "20250101_0000", Except.ok ⟨1 / 1000, [⟨"top", [], []⟩]⟩⟩
        Course.openEBL 1 [⟨"top", [], []⟩] initState =
      { initState with log := initState.log ++ [emptyWarning] } :=
  c10_empty_skip _ _ _ _ [] _ (by decide) (Or.inl rfl) (by decide)

/- Helper lemmas for counting splitter-output connections. -/

theorem countP_range'_ite (d : ℕ) (q : ℕ → Bool)
    (hq : ∀ x, q x = decide (x = d)) :
    ∀ n a, (List.range' a n).countP q = if a ≤ d ∧ d < a + n then 1 else 0 := by
  intro n
  induction n with
  | zero =>
    intro a
    rw [if_neg (by omega)]
    rfl
  | succ n ih =>
    intro a
    rw [List.range'_succ, List.countP_cons, ih (a + 1), hq a]
    simp only [decide_eq_true_eq]
    split_ifs <;> omega

theorem countP_false_all (q : ℕ → Bool) (hq : ∀ x, q x = false) :
    ∀ l : List ℕ, l.countP q = 0 := by
  intro l
  induction l with
  | nil => rfl
  | cons x xs ih =>
    rw [List.countP_cons, hq, ih]
    simp

theorem atOutput_connFor (d x : ℕ) (t : Target) :
    atOutput d (connFor x t) = decide (x = d) := by
  simp only [atOutput, connFor]
  exact decide_eq_decide.mpr (by omega)

theorem isDesignConn_connFor_self (d x : ℕ) :
    isDesignConn d (connFor x (Target.design x)) = decide (x = d) := by
  rw [isDesignConn, atOutput_connFor]
  by_cases h : x = d
  · subst h; simp [connFor]
  · simp [h]

theorem isDesignConn_connFor_term (d x : ℕ) :
    isDesignConn d (connFor x Target.terminator) = false := by
  simp [isDesignConn, connFor]

theorem isTermConn_connFor_design (d x : ℕ) :
    isTermConn d (connFor x (Target.design x)) = false := by
  simp [isTermConn, connFor]

theorem isTermConn_connFor_self (d x : ℕ) :
    isTermConn d (connFor x Target.terminator) = decide (x = d) := by
  rw [isTermConn, atOutput_connFor]
  by_cases h : x = d
  · subst h; simp [connFor]
  · simp [h]

theorem rowConns_counts (dc row d : ℕ) :
    (rowConns dc row).countP (isDesignConn d) =
      (if row * 16 ≤ d ∧
          d < row * 16 + (min dc ((row + 1) * 16) - row * 16) then 1 else 0) ∧
    (rowConns dc row).countP (isTermConn d) =
      (if min dc ((row + 1) * 16) ≤ d ∧
          d < min dc ((row + 1) * 16) +
            ((row + 1) * 16 - min dc ((row + 1) * 16)) then 1 else 0) ∧
    (rowConns dc row).countP (atOutput d) =
      (if row * 16 ≤ d ∧
          d < row * 16 + (min dc ((row + 1) * 16) - row * 16) then 1 else 0) +
      (if min dc ((row + 1) * 16) ≤ d ∧
          d < min dc ((row + 1) * 16) +
            ((row + 1) * 16 - min dc ((row + 1) * 16)) then 1 else 0) := by
  have h16 : tree_depth ^ 2 = 16 := rfl
  unfold rowConns designRange termRange
  simp only [h16]
  refine ⟨?_, ?_, ?_⟩
  · rw [List.countP_append, List.countP_map, List.countP_map]
    simp only [Function.comp_def]
    rw [countP_range'_ite d _ (fun x => isDesignConn_connFor_self d x),
      countP_false_all _ (fun x => isDesignConn_connFor_term d x)]
    simp
  · rw [List.countP_append, List.countP_map, List.countP_map]
    simp only [Function.comp_def]
    rw [countP_false_all _ (fun x => isTermConn_connFor_design d x),
      countP_range'_ite d _ (fun x => isTermConn_connFor_self d x)]
    simp
  · rw [List.countP_append, List.countP_map, List.countP_map]
    simp only [Function.comp_def]
    rw [countP_range'_ite d _ (fun x => atOutput_connFor d x _),
      countP_range'_ite d _ (fun x => atOutput_connFor d x _)]

/-- Claim C8 (amended): in the laser placement loop every splitter output of
design index `d < design_count` is connected exactly once, to student design
`course_cells[d]`; but an unused output (`d >= design_count`) receives
`n_lasers - d / 16` terminator connections, because the terminator loop of
row `row` starts at `min(design_count, (row+1)*16)` instead of `row*16`, so
for `design_count < 32` later rows re-terminate outputs of earlier rows.
Every output is still connected at least once, so with
`design_count <= 48` every splitter output is either consumed by a design or
terminated; the connection count is exactly one for every output only when
`32 <= design_count <= 48`. -/
theorem c8_amended (dc d : ℕ) (hdc : dc ≤ 48) (hd : d < 48) :
    designConnsAt dc d = (if d < dc then 1 else 0) ∧
    termConnsAt dc d = (if d < dc then 0 else n_lasers - d / 16) ∧
    connsAtOutput dc d = designConnsAt dc d + termConnsAt dc d ∧
    1 ≤ connsAtOutput dc d := by
  have hA : allConns dc =
      rowConns dc 0 ++ (rowConns dc 1 ++ (rowConns dc 2 ++ [])) := rfl
  have h0 := rowConns_counts dc 0 d
  have h1 := rowConns_counts dc 1 d
  have h2 := rowConns_counts dc 2 d
  have hn : n_lasers = 3 := rfl
  have hdes : designConnsAt dc d =
      (List.countP (isDesignConn d) (rowConns dc 0)) +
      ((List.countP (isDesignConn d) (rowConns dc 1)) +
        (List.countP (isDesignConn d) (rowConns dc 2))) := by
    rw [designConnsAt, hA]
    simp [List.countP_append]
  have hterm : termConnsAt dc d =
      (List.countP (isTermConn d) (rowConns dc 0)) +
      ((List.countP (isTermConn d) (rowConns dc 1)) +
        (List.countP (isTermConn d) (rowConns dc 2))) := by
    rw [termConnsAt, hA]
    simp [List.countP_append]
  have hall : connsAtOutput dc d =
      (List.countP (atOutput d) (rowConns dc 0)) +
      ((List.countP (atOutput d) (rowConns dc 1)) +
        (List.countP (atOutput d) (rowConns dc 2))) := by
    rw [connsAtOutput, hA]
    simp [List.countP_append]
  refine ⟨?_, ?_, ?_, ?_⟩
  · rw [hdes, h0.1, h1.1, h2.1]
    split_ifs <;> omega
  · rw [hterm, h0.2.1, h1.2.1, h2.2.1, hn]
    split_ifs <;> omega
  · rw [hall, hdes, hterm, h0.1, h1.1, h2.1, h0.2.1, h1.2.1, h2.2.1,
      h0.2.2, h1.2.2, h2.2.2]
    split_ifs <;> omega
  · rw [hall, h0.2.2, h1.2.2, h2.2.2]
    split_ifs <;> omega

/-- Counterexample for C8 as stated: with `design_count = 10` (at most 48),
the splitter output of index 10 is connected three times (one terminator from
each laser row), not exactly once. -/
theorem c8_counterexample :
    connsAtOutput 10 10 = 3 ∧ ¬connsAtOutput 10 10 = 1 := by
  constructor <;> decide

/-- Witness for C8 (amended) at `design_count = 10`, output 20: no design
connection, two terminator connections. -/
theorem c8_amended_witness :
    (10 : ℕ) ≤ 48 ∧ (20 : ℕ) < 48 ∧
    (designConnsAt 10 20 = (if 20 < 10 then 1 else 0) ∧
      termConnsAt 10 20 = (if 20 < 10 then 0 else n_lasers - 20 / 16) ∧
      connsAtOutput 10 20 = designConnsAt 10 20 + termConnsAt 10 20 ∧
      1 ≤ connsAtOutput 10 20) :=
  ⟨by decide, by decide, c8_amended 10 20 (by decide) (by decide)⟩

/- Helper lemmas for the power-monitor reorganization. -/

theorem pythonInsert_zero (x : α) (l : List α) : pythonInsert 0 x l = x :: l :=
  rfl

theorem pythonInsert_succ_cons (n : ℕ) (x a : α) (l : List α) :
    pythonInsert (n + 1) x (a :: l) = a :: pythonInsert n x l := by
  simp [pythonInsert]

theorem pythonInsert_append (x : α) :
    ∀ (l₁ l₂ : List α) (n : ℕ), l₁.length ≤ n →
      pythonInsert n x (l₁ ++ l₂) = l₁ ++ pythonInsert (n - l₁.length) x l₂ := by
  intro l₁
  induction l₁ with
  | nil =>
    intro l₂ n h
    simp
  | cons a l₁ ih =>
    intro l₂ n h
    rw [List.length_cons] at h
    obtain ⟨m, rfl⟩ : ∃ m, n = m + 1 := ⟨n - 1, by omega⟩
    rw [List.cons_append, pythonInsert_succ_cons, ih l₂ m (by omega),
      List.cons_append]
    have hm : m + 1 - (a :: l₁).length = m - l₁.length := by
      rw [List.length_cons]; omega
    rw [hm]

theorem findPmIdx_lt_length :
    ∀ (l : List String) (k i : ℕ), findPmIdx l k = some i →
      k ≤ i ∧ i < k + l.length := by
  intro l
  induction l with
  | nil =>
    intro k i h
    rw [findPmIdx] at h
    exact Option.noConfusion h
  | cons c rest ih =>
    intro k i h
    rw [findPmIdx] at h
    by_cases hp : inLower "power_monitor" c
    · rw [if_pos hp] at h
      have : k = i := Option.some.inj h
      rw [List.length_cons]
      omega
    · rw [if_neg hp] at h
      have := ih (k + 1) i h
      rw [List.length_cons]
      omega

/-- Claim C9 (amended): when some loaded cell name contains `power_monitor`
(case-insensitively), the first such cell is popped and the same cell is
re-inserted sequentially at positions `row * tree_depth ** 2` (0, 16, 32) for
the three laser rows, and the list grows by `n_lasers - 1 = 2`; since Python
`list.insert` clamps its position to the list length, the three copies sit
exactly at indices 0, 16 and 32 provided the popped list has at least 30
remaining cells (otherwise the later copies are appended at the end); when no
power-monitor cell exists, only a warning is logged and `course_cells` is
unchanged. -/
theorem c9_amended (cells : List String) :
    (findPmIdx cells 0 = none → powerMonitorStep cells = ⟨cells, true⟩) ∧
    (∀ i, findPmIdx cells 0 = some i → 30 ≤ (cells.eraseIdx i).length →
      (powerMonitorStep cells).cells =
        cells.getD i "" :: ((cells.eraseIdx i).take 15 ++
          cells.getD i "" :: (((cells.eraseIdx i).drop 15).take 15 ++
            cells.getD i "" :: (cells.eraseIdx i).drop 30)) ∧
      (powerMonitorStep cells).cells.length = cells.length + 2 ∧
      (powerMonitorStep cells).warned = false) := by
  constructor
  · intro h
    rw [powerMonitorStep, h]
  · intro i hi h30
    set pm := cells.getD i "" with hpm
    set l0 := cells.eraseIdx i with hl0
    have hfold : powerMonitorStep cells =
        ⟨pythonInsert 32 pm (pythonInsert 16 pm (pythonInsert 0 pm l0)),
          false⟩ := by
      rw [powerMonitorStep, hi]
      rfl
    have hlen0 : (l0.take 15).length = 15 := by
      rw [List.length_take]; omega
    have h2 : pythonInsert 16 pm (pm :: l0) =
        pm :: (l0.take 15 ++ pm :: l0.drop 15) := by
      rw [show (16 : ℕ) = 15 + 1 from rfl, pythonInsert_succ_cons]
      rfl
    have h3 : pythonInsert 32 pm (pm :: (l0.take 15 ++ pm :: l0.drop 15)) =
        pm :: (l0.take 15 ++ pm :: ((l0.drop 15).take 15 ++
          pm :: (l0.drop 15).drop 15)) := by
      rw [show (32 : ℕ) = 31 + 1 from rfl, pythonInsert_succ_cons,
        pythonInsert_append pm (l0.take 15) (pm :: l0.drop 15) 31
          (by rw [hlen0]; omega), hlen0,
        show (31 - 15 : ℕ) = 15 + 1 from rfl, pythonInsert_succ_cons]
      rfl
    have hdd : (l0.drop 15).drop 15 = l0.drop 30 := by
      rw [List.drop_drop]
    have hcells : (powerMonitorStep cells).cells =
        pm :: (l0.take 15 ++ pm :: ((l0.drop 15).take 15 ++
          pm :: l0.drop 30)) := by
      rw [hfold, pythonInsert_zero, h2, h3, hdd]
    have hlen : cells.length = l0.length + 1 := by
      have hb := findPmIdx_lt_length cells 0 i hi
      have he : (cells.eraseIdx i).length + 1 = cells.length :=
        List.length_eraseIdx_add_one (by omega)
      rw [← hl0] at he
      omega
    refine ⟨hcells, ?_, by rw [hfold]⟩
    rw [hcells]
    simp only [List.length_cons, List.length_append, List.length_take,
      List.length_drop]
    omega

/-- Witness for C9 (amended): with 30 other designs, the power monitor ends
at indices 0, 16 and 32 and the list grows by two. -/
theorem c9_amended_witness :
    (powerMonitorStep ("ELEC413_power_monitor" ::
        List.replicate 30 "design")).cells =
      ("ELEC413_power_monitor" :: List.replicate 30 "design").getD 0 "" ::
        ((("ELEC413_power_monitor" ::
            List.replicate 30 "design").eraseIdx 0).take 15 ++
          ("ELEC413_power_monitor" :: List.replicate 30 "design").getD 0 "" ::
            (((("ELEC413_power_monitor" ::
                List.replicate 30 "design").eraseIdx 0).drop 15).take 15 ++
              ("ELEC413_power_monitor" ::
                  List.replicate 30 "design").getD 0 "" ::
                (("ELEC413_power_monitor" ::
                    List.replicate 30 "design").eraseIdx 0).drop 30)) ∧
    (powerMonitorStep ("ELEC413_power_monitor" ::
        List.replicate 30 "design")).cells.length =
      ("ELEC413_power_monitor" :: List.replicate 30 "design").length + 2 ∧
    (powerMonitorStep ("ELEC413_power_monitor" ::
        List.replicate 30 "design")).warned = false :=
  (c9_amended ("ELEC413_power_monitor" :: List.replicate 30 "design")).2 0
    (by decide) (by decide)

/-- Counterexample for C9 as stated: with only one other design, the three
copies land at indices 0, 2 and 3 rather than 0, 16 and 32 (Python `insert`
clamps to the end of the list), so the power monitor does not occupy indices
16 and 32. -/
theorem c9_counterexample :
    (powerMonitorStep ["ELEC413_power_monitor.gds", "elec413_bob.gds"]).cells =
      ["ELEC413_power_monitor.gds", "elec413_bob.gds",
        "ELEC413_power_monitor.gds", "ELEC413_power_monitor.gds"] ∧
    (powerMonitorStep
        ["ELEC413_power_monitor.gds", "elec413_bob.gds"]).cells.getD 16 "" ≠
      "ELEC413_power_monitor.gds" := by
  constructor <;> decide

/- Helper lemmas: invariants of the loading loop. -/

theorem processCells_inv (f : SubFile) (numTop : ℕ) :
    ∀ (tops : List TopCellData) (st : LoopState),
      st.course_cells.length = st.design_count →
      st.cells_course.length = st.design_count →
      st.cells_course = st.accepted.map courseOf →
      (processCells f (courseOf f.base) numTop tops st).course_cells.length =
          (processCells f (courseOf f.base) numTop tops st).design_count ∧
        (processCells f (courseOf f.base) numTop tops st).cells_course.length =
          (processCells f (courseOf f.base) numTop tops st).design_count ∧
        (processCells f (courseOf f.base) numTop tops st).cells_course =
          (processCells f (courseOf f.base) numTop tops st).accepted.map
            courseOf := by
  intro tops
  induction tops with
  | nil =>
    intro st h1 h2 h3
    rw [processCells]
    exact ⟨h1, h2, h3⟩
  | cons c rest ih =>
    intro st h1 h2 h3
    rw [processCells]
    by_cases hfw : strHasE framework_file f.base = true
    · rw [if_pos hfw]
      exact ⟨h1, h2, h3⟩
    · rw [if_neg hfw, if_neg (by simp [ubc_file])]
      by_cases hsel : numTop = 1 ∨ strLower c.name = "top" ∨
        strLower c.name = "EBeam_"
      · rw [if_pos hsel]
        by_cases hempty : (bboxOf (c.shapesKept ++ c.shapesOther)).top <
          (bboxOf (c.shapesKept ++ c.shapesOther)).bottom
        · rw [if_pos hempty]
          exact ⟨h1, h2, h3⟩
        · rw [if_neg hempty]
          apply ih
          · simp [h1]
          · simp [h2]
          · simp [h3]
      · rw [if_neg hsel]
        exact ih st h1 h2 h3

theorem processFile_inv (f : SubFile) (lay : SubLayout) (st : LoopState)
    (h1 : st.course_cells.length = st.design_count)
    (h2 : st.cells_course.length = st.design_count)
    (h3 : st.cells_course = st.accepted.map courseOf) :
    (processFile f lay st).course_cells.length =
        (processFile f lay st).design_count ∧
      (processFile f lay st).cells_course.length =
        (processFile f lay st).design_count ∧
      (processFile f lay st).cells_course =
        (processFile f lay st).accepted.map courseOf :=
  processCells_inv f lay.tops.length lay.tops _ h1 h2 h3

theorem foldFiles_inv :
    ∀ (files : List SubFile) (st st' : LoopState),
      st.course_cells.length = st.design_count →
      st.cells_course.length = st.design_count →
      st.cells_course = st.accepted.map courseOf →
      foldFiles files st = Except.ok st' →
      st'.course_cells.length = st'.design_count ∧
        st'.cells_course.length = st'.design_count ∧
        st'.cells_course = st'.accepted.map courseOf := by
  intro files
  induction files with
  | nil =>
    intro st st' h1 h2 h3 h
    rw [foldFiles] at h
    obtain rfl := Except.ok.inj h
    exact ⟨h1, h2, h3⟩
  | cons f rest ih =>
    intro st st' h1 h2 h3 h
    rw [foldFiles] at h
    by_cases hlf : isLayoutFile f.path = true
    · rw [if_pos hlf] at h
      cases hr : f.readResult with
      | error e =>
        rw [hr] at h
        exact Except.noConfusion h
      | ok lay =>
        rw [hr] at h
        have hp := processFile_inv f lay st h1 h2 h3
        exact ih _ _ hp.1 hp.2.1 hp.2.2 h
    · rw [if_neg hlf] at h
      exact ih _ _ h1 h2 h3 h

/-- Claim C7 (amended): `cells_course` and `laser_circuit_cells` are
populated once and used unchanged, and after the loading loop `course_cells`
and `cells_course` both have length `design_count`, with `cells_course[i]`
the course cell chosen (by `courseOf`) for the i-th accepted submission; but
`course_cells` is not left unmutated afterwards: the power-monitor
reorganization (lines 483-501) rewrites it once more whenever a
power-monitor cell is present (when none is present it is unchanged). -/
theorem c7_amended (files : List SubFile) (st : LoopState)
    (h : foldFiles files initState = Except.ok st) :
    st.course_cells.length = st.design_count ∧
    st.cells_course.length = st.design_count ∧
    st.cells_course = st.accepted.map courseOf ∧
    (findPmIdx st.course_cells 0 = none →
      powerMonitorStep st.course_cells = ⟨st.course_cells, true⟩) ∧
    (∀ pdk out, runScript files pdk = Except.ok out →
      out.cells_course = st.cells_course ∧
      out.design_count = st.design_count ∧
      out.course_cells_final = (powerMonitorStep st.course_cells).cells ∧
      out.laser_circuit_cells = buildLaserCircuits n_lasers) := by
  have hinv := foldFiles_inv files initState st rfl rfl rfl h
  refine ⟨hinv.1, hinv.2.1, hinv.2.2, ?_, ?_⟩
  · intro hn
    rw [powerMonitorStep, hn]
  · intro pdk out hrun
    rw [runScript, h] at hrun
    cases hc : checkRequiredCells pdk with
    | error e =>
      rw [hc] at hrun
      exact Except.noConfusion hrun
    | ok u =>
      rw [hc] at hrun
      obtain rfl := Except.ok.inj hrun
      exact ⟨rfl, rfl, rfl, rfl⟩

/-- Counterexample for C7 as stated: on a run containing a power-monitor
design, `course_cells` has length `design_count` right after the loading
loop, but the power-monitor reorganization then mutates it (two entries are
added), so the list is not populated once and left unmutated. -/
theorem c7_counterexample :
    (foldFiles pmRunFiles initState).toOption.isSome = true ∧
    pmRunState.course_cells.length = pmRunState.design_count ∧
    (powerMonitorStep pmRunState.course_cells).cells ≠
      pmRunState.course_cells ∧
    (powerMonitorStep pmRunState.course_cells).cells.length =
      pmRunState.course_cells.length + 2 := by
  refine ⟨by decide, by decide, by decide, by decide⟩

/-- Witness for C7 (amended) on the concrete power-monitor run: both design
lists have length `design_count`, and `cells_course` records `courseOf` of
each accepted submission. -/
theorem c7_amended_witness :
    pmRunState.course_cells.length = pmRunState.design_count ∧
    pmRunState.cells_course.length = pmRunState.design_count ∧
    pmRunState.cells_course = pmRunState.accepted.map courseOf :=
  ⟨(c7_amended pmRunFiles pmRunState (by rfl)).1,
    (c7_amended pmRunFiles pmRunState (by rfl)).2.1,
    (c7_amended pmRunFiles pmRunState (by rfl)).2.2.1⟩
